import Mathlib

/-!
Shallow embedding of the real-time session and connection management
subsystem of the meeting-notes backend (src/backend/websocket.py,
src/backend/transcription.py, src/backend/main.py), together with
theorems settling the frozen claims about it.

Modelling conventions:
* Python dictionaries keyed by meeting id become functions
  `MeetingId → Option α`; Python sets of websocket handles become
  `Finset Client` with `Client := ℕ` (an abstract connection handle).
* The external collaborators are parameters: `transcribe` stands for
  `TranscriptionService.transcribe_audio_file` (raising is `Except.error`),
  `analyze` for `analyze_transcript_with_ai`, `decode` for
  `base64.b64decode`, and `sendFails` records which clients' channel
  writes raise inside `ConnectionManager.broadcast`.
* A raised-and-uncaught Python exception is an `Except.error` /
  `LoopExit.uncaught` value; the `finally:` block in
  `process_audio_chunk` only deletes the temp file, which is outside
  the modelled state, so it does not appear.
-/

namespace MeetingNotes

abbrev MeetingId := String

abbrev Client := ℕ

abbrev AudioBytes := List ℕ

/-- `TranscriptionService.transcribe_audio_file` raises `Exception(msg)`;
we keep the message. -/
abbrev TranscriptionFailure := String

/-- `analyze_transcript_with_ai` raises (OpenAI error or `HTTPException`);
we keep the message. -/
abbrev AnalysisFailure := String

/-- `Task` pydantic model from src/backend/main.py. -/
structure Task where
  title : String
  assignee : String
  due_date : String
  priority : String
  description : Option String
deriving DecidableEq

/-- `AnalysisResult` pydantic model from src/backend/main.py. -/
structure AnalysisResult where
  tasks : List Task
  decisions : List String
  risks : List String
  follow_ups : List String
  summary : String
deriving DecidableEq

/-- `RealtimeTranscriber` from src/backend/transcription.py: its
observable state is the list `self.buffer` of transcript fragments. -/
structure RealtimeTranscriber where
  buffer : List String
deriving DecidableEq

/-- `RealtimeTranscriber.__init__`: `self.buffer = []`. -/
def RealtimeTranscriber.init : RealtimeTranscriber := ⟨[]⟩

/-- `RealtimeTranscriber.process_audio_chunk`: transcribe the chunk via
the external service; on success append the text to the buffer and
return it, on failure the exception propagates (the temp-file cleanup
in `finally:` is outside the modelled state). -/
def RealtimeTranscriber.process_audio_chunk
    (transcribe : AudioBytes → Except TranscriptionFailure String)
    (t : RealtimeTranscriber) (audio_chunk : AudioBytes) :
    Except TranscriptionFailure (String × RealtimeTranscriber) :=
  match transcribe audio_chunk with
  | .error e => .error e
  | .ok text => .ok (text, ⟨t.buffer ++ [text]⟩)

/-- `RealtimeTranscriber.get_full_transcript`: `" ".join(self.buffer)`. -/
def RealtimeTranscriber.get_full_transcript (t : RealtimeTranscriber) : String :=
  String.intercalate " " t.buffer

/-- `RealtimeTranscriber.clear_buffer`: `self.buffer = []`. -/
def RealtimeTranscriber.clear_buffer (_ : RealtimeTranscriber) : RealtimeTranscriber :=
  ⟨[]⟩

/-- Python dict assignment / deletion on a map modelled as a function:
`updateMap f m v` sets key `m` to `v` (with `v = none` for `del`). -/
def updateMap {α : Type} (f : MeetingId → Option α) (m : MeetingId) (v : Option α) :
    MeetingId → Option α :=
  fun m' => if m' = m then v else f m'

/-- `ConnectionManager` from src/backend/websocket.py:
`self.active_connections : Dict[str, Set[WebSocket]]` and
`self.transcribers : Dict[str, RealtimeTranscriber]`. -/
structure ConnectionManager where
  active_connections : MeetingId → Option (Finset Client)
  transcribers : MeetingId → Option RealtimeTranscriber

/-- `ConnectionManager.__init__`: both dicts empty. -/
def ConnectionManager.init : ConnectionManager :=
  ⟨fun _ => none, fun _ => none⟩

/-- `ConnectionManager.connect` (the `websocket.accept()` call has no
registry effect): if the meeting id is absent, register an empty client
set and a fresh transcriber; then add the websocket to the set. -/
def ConnectionManager.connect (st : ConnectionManager) (ws : Client) (m : MeetingId) :
    ConnectionManager :=
  match st.active_connections m with
  | some s =>
      { st with active_connections := updateMap st.active_connections m (some (insert ws s)) }
  | none =>
      { active_connections := updateMap st.active_connections m (some {ws}),
        transcribers := updateMap st.transcribers m (some RealtimeTranscriber.init) }

/-- `ConnectionManager.disconnect`: discard the websocket from the
meeting's set if the meeting is registered; if the set becomes empty,
delete both the connection-set entry and the transcriber entry. -/
def ConnectionManager.disconnect (st : ConnectionManager) (ws : Client) (m : MeetingId) :
    ConnectionManager :=
  match st.active_connections m with
  | none => st
  | some s =>
      if s.erase ws = ∅ then
        { active_connections := updateMap st.active_connections m none,
          transcribers := updateMap st.transcribers m none }
      else
        { st with active_connections := updateMap st.active_connections m (some (s.erase ws)) }

/-- `ConnectionManager.get_transcriber`: `self.transcribers.get(meeting_id)`. -/
def ConnectionManager.get_transcriber (st : ConnectionManager) (m : MeetingId) :
    Option RealtimeTranscriber :=
  st.transcribers m

/-- In Python the registry holds a reference to a mutable
`RealtimeTranscriber` object; a method call mutates the object in
place, which is observable through the registry exactly when the entry
is still present. `update_transcriber` models that in-place mutation. -/
def ConnectionManager.update_transcriber (st : ConnectionManager) (m : MeetingId)
    (t : RealtimeTranscriber) : ConnectionManager :=
  match st.transcribers m with
  | none => st
  | some _ => { st with transcribers := updateMap st.transcribers m (some t) }

/-- `ConnectionManager.broadcast`: attempt `send_json` to every client
of the meeting (`sendFails` says whose send raises; the bare `except:`
collects those into `disconnected`), then call `disconnect` for each
client whose send failed. Returns the set of clients that received the
message, paired with the updated registry. -/
def ConnectionManager.broadcast (st : ConnectionManager) (m : MeetingId)
    (sendFails : Client → Bool) : Finset Client × ConnectionManager :=
  match st.active_connections m with
  | none => (∅, st)
  | some s =>
      let delivered := s.filter (fun c => !(sendFails c))
      let disconnected := s.filter (fun c => sendFails c)
      (delivered, (disconnected.sort (· ≤ ·)).foldl (fun acc c => acc.disconnect c m) st)

/-- Inbound JSON message as the endpoint reads it: `data["type"]`,
`data["audio"]`, `data.get("timestamp")`. A `none` field models a
missing key (subscripting it raises `KeyError`). -/
structure InboundMessage where
  type? : Option String
  audio? : Option String
  timestamp? : Option ℕ
deriving DecidableEq

/-- Outbound messages of the endpoint. `transcriptChunk` is the wire
message with `"type": "partial_transcript"`, `analysisComplete` is
`"analysis_complete"`, `participantLeft` is `"participant_left"`. -/
inductive OutboundMessage where
  | transcriptChunk (text : String) (timestamp : Option ℕ)
  | analysisComplete (transcript : String) (analysis : AnalysisResult)
  | participantLeft (message : String)
  | pong
deriving DecidableEq

/-- An exception escaping one iteration of the endpoint's message loop. -/
inductive PyError where
  | keyError (key : String)
  | transcriptionFailed (e : TranscriptionFailure)
  | analysisFailed (e : AnalysisFailure)
deriving DecidableEq

/-- Result of handling one inbound message: the registry afterwards,
the broadcasts performed (delivered-to set and payload, in order), and
the messages sent directly to the requesting client only. -/
structure StepResult where
  manager : ConnectionManager
  broadcasts : List (Finset Client × OutboundMessage)
  directSends : List OutboundMessage

/-- One iteration of the `while True:` body of `websocket_endpoint`
(src/backend/websocket.py lines 64-107) for connection `ws` of meeting
`m`, handling one received `data`. -/
def websocket_handle_message
    (decode : String → AudioBytes)
    (transcribe : AudioBytes → Except TranscriptionFailure String)
    (analyze : String → Except AnalysisFailure AnalysisResult)
    (sendFails : Client → Bool)
    (st : ConnectionManager) (ws : Client) (m : MeetingId)
    (data : InboundMessage) : Except PyError StepResult :=
  match data.type? with
  | none => .error (.keyError "type")
  | some ty =>
    if ty = "audio_chunk" then
      match st.get_transcriber m with
      | none => .ok ⟨st, [], []⟩
      | some t =>
        match data.audio? with
        | none => .error (.keyError "audio")
        | some audio =>
          match t.process_audio_chunk transcribe (decode audio) with
          | .error e => .error (.transcriptionFailed e)
          | .ok (text, t') =>
            let st1 := st.update_transcriber m t'
            let (delivered, st2) := st1.broadcast m sendFails
            .ok ⟨st2, [(delivered, .transcriptChunk text data.timestamp?)], []⟩
    else if ty = "finalize" then
      match st.get_transcriber m with
      | none => .ok ⟨st, [], []⟩
      | some t =>
        let full_transcript := t.get_full_transcript
        match analyze full_transcript with
        | .error e => .error (.analysisFailed e)
        | .ok analysis =>
          let (delivered, st1) := st.broadcast m sendFails
          let st2 := st1.update_transcriber m t.clear_buffer
          .ok ⟨st2, [(delivered, .analysisComplete full_transcript analysis)], []⟩
    else if ty = "ping" then
      .ok ⟨st, [], [.pong]⟩
    else
      .ok ⟨st, [], []⟩

/-- What `websocket.receive_json()` yields next on one connection:
either a decoded message, or a `WebSocketDisconnect` being raised. -/
inductive ClientEvent where
  | msg (data : InboundMessage)
  | disconnect
deriving DecidableEq

/-- How a run of the message loop ended. `pending` means the event
script was exhausted with the loop still waiting; `disconnected` means
`WebSocketDisconnect` was raised and the `except` handler ran;
`uncaught e` means exception `e` escaped the loop (it is not a
`WebSocketDisconnect`, so the handler does not run). -/
inductive LoopExit where
  | pending
  | disconnected
  | uncaught (e : PyError)
deriving DecidableEq

/-- Observable outcome of running the message loop over a finite event
script: final registry, broadcasts and direct sends in order, and how
the loop ended. -/
structure RunResult where
  manager : ConnectionManager
  broadcasts : List (Finset Client × OutboundMessage)
  directSends : List OutboundMessage
  exit : LoopExit

/-- The `try: while True: ... except WebSocketDisconnect:` loop of
`websocket_endpoint` for connection `ws` of meeting `m`, driven by a
finite script of receive outcomes. On `WebSocketDisconnect` the
handler disconnects `ws` and broadcasts `participant_left`; any other
exception escapes with no cleanup and no further processing. -/
def websocket_loop
    (decode : String → AudioBytes)
    (transcribe : AudioBytes → Except TranscriptionFailure String)
    (analyze : String → Except AnalysisFailure AnalysisResult)
    (sendFails : Client → Bool)
    (st : ConnectionManager) (ws : Client) (m : MeetingId) :
    List ClientEvent → RunResult
  | [] => ⟨st, [], [], .pending⟩
  | .disconnect :: _ =>
      let st1 := st.disconnect ws m
      let (delivered, st2) := st1.broadcast m sendFails
      ⟨st2, [(delivered, .participantLeft "A participant has left")], [], .disconnected⟩
  | .msg data :: rest =>
      match websocket_handle_message decode transcribe analyze sendFails st ws m data with
      | .error e => ⟨st, [], [], .uncaught e⟩
      | .ok r =>
          let r' := websocket_loop decode transcribe analyze sendFails r.manager ws m rest
          ⟨r'.manager, r.broadcasts ++ r'.broadcasts, r.directSends ++ r'.directSends, r'.exit⟩

/-- A registry-level operation, for reasoning over arbitrary
connect/disconnect histories. -/
inductive RegistryOp where
  | connect (ws : Client) (m : MeetingId)
  | disconnect (ws : Client) (m : MeetingId)

/-- Apply a list of registry operations in order. -/
def applyOps (st : ConnectionManager) : List RegistryOp → ConnectionManager
  | [] => st
  | .connect ws m :: rest => applyOps (st.connect ws m) rest
  | .disconnect ws m :: rest => applyOps (st.disconnect ws m) rest

end MeetingNotes

namespace MeetingNotes

lemma intercalate_go_spec : ∀ (r : List String) (a b : String),
    String.intercalate.go a " " (b :: r) = a ++ " " ++ String.intercalate.go b " " r := by
  intro r
  induction r with
  | nil => intro a b; simp [String.intercalate.go]
  | cons c r' ih =>
      intro a b
      rw [show String.intercalate.go a " " (b :: c :: r') =
            String.intercalate.go (a ++ " " ++ b) " " (c :: r') from rfl]
      rw [ih (a ++ " " ++ b) c, ih b c]
      simp [String.append_assoc]

/-- Join of the spec's words: fragments joined by a single space. -/
def spaceJoined : List String → String
  | [] => ""
  | [t] => t
  | t :: rest => t ++ " " ++ spaceJoined rest

lemma intercalate_space_eq : ∀ ts, String.intercalate " " ts = spaceJoined ts := by
  intro ts
  match ts with
  | [] => rfl
  | [t] => rfl
  | t :: u :: rest =>
      show String.intercalate.go t " " (u :: rest) = _
      rw [intercalate_go_spec rest t u]
      have h : String.intercalate.go u " " rest = spaceJoined (u :: rest) :=
        intercalate_space_eq (u :: rest)
      rw [h]
      rfl

end MeetingNotes

namespace MeetingNotes

lemma updateMap_same {α : Type} (f : MeetingId → Option α) (m : MeetingId) (v : Option α) :
    updateMap f m v m = v := by
  simp [updateMap]

lemma updateMap_other {α : Type} (f : MeetingId → Option α) (m m' : MeetingId) (v : Option α)
    (h : m' ≠ m) : updateMap f m v m' = f m' := by
  simp [updateMap, h]

lemma disconnect_absent (st : ConnectionManager) (ws : Client) (m : MeetingId)
    (h : st.active_connections m = none) : st.disconnect ws m = st := by
  simp [ConnectionManager.disconnect, h]

lemma foldl_disconnect_absent (l : List Client) (st : ConnectionManager) (m : MeetingId)
    (h : st.active_connections m = none) :
    l.foldl (fun acc c => acc.disconnect c m) st = st := by
  induction l with
  | nil => rfl
  | cons c l' ih => simpa [List.foldl_cons, disconnect_absent st c m h] using ih

lemma sdiff_insert_eq_erase_sdiff (s t : Finset Client) (c : Client) :
    s \ insert c t = s.erase c \ t := by
  ext a
  simp [Finset.mem_sdiff, Finset.mem_erase, Finset.mem_insert]
  tauto

lemma foldl_disconnect_spec (l : List Client) :
    ∀ (st : ConnectionManager) (m : MeetingId) (s : Finset Client),
    st.active_connections m = some s → s ≠ ∅ →
    ((l.foldl (fun acc c => acc.disconnect c m) st).active_connections m
        = if s \ l.toFinset = ∅ then none else some (s \ l.toFinset)) ∧
    ((l.foldl (fun acc c => acc.disconnect c m) st).transcribers m
        = if s \ l.toFinset = ∅ then none else st.transcribers m) ∧
    (∀ m', m' ≠ m →
      (l.foldl (fun acc c => acc.disconnect c m) st).active_connections m'
          = st.active_connections m' ∧
      (l.foldl (fun acc c => acc.disconnect c m) st).transcribers m'
          = st.transcribers m') := by
  induction l with
  | nil =>
      intro st m s hs hne
      simp [Finset.sdiff_empty, hs, hne]
  | cons c l' ih =>
      intro st m s hs hne
      rw [List.foldl_cons]
      by_cases hc : s.erase c = ∅
      · have hdel : st.disconnect c m =
            { active_connections := updateMap st.active_connections m none,
              transcribers := updateMap st.transcribers m none } := by
          simp [ConnectionManager.disconnect, hs, hc]
        have habs : (st.disconnect c m).active_connections m = none := by
          rw [hdel]; exact updateMap_same _ _ _
        rw [foldl_disconnect_absent l' _ m habs]
        have hempty : s \ (c :: l').toFinset = ∅ := by
          rw [List.toFinset_cons, sdiff_insert_eq_erase_sdiff, hc]
          exact Finset.empty_sdiff _
        refine ⟨?_, ?_, ?_⟩
        · rw [habs, hempty]; simp
        · rw [hdel, hempty]; simp [updateMap_same]
        · intro m' hm'
          rw [hdel]
          exact ⟨updateMap_other _ _ _ _ hm', updateMap_other _ _ _ _ hm'⟩
      · have hkeep : st.disconnect c m =
            { st with active_connections := updateMap st.active_connections m (some (s.erase c)) } := by
          simp [ConnectionManager.disconnect, hs, hc]
        have hact : (st.disconnect c m).active_connections m = some (s.erase c) := by
          rw [hkeep]; exact updateMap_same _ _ _
        have htr : (st.disconnect c m).transcribers m = st.transcribers m := by
          rw [hkeep]
        obtain ⟨h1, h2, h3⟩ := ih (st.disconnect c m) m (s.erase c) hact hc
        have hsd : s.erase c \ l'.toFinset = s \ (c :: l').toFinset := by
          rw [List.toFinset_cons, sdiff_insert_eq_erase_sdiff]
        refine ⟨?_, ?_, ?_⟩
        · rw [h1, hsd]
        · rw [h2, hsd, htr]
        · intro m' hm'
          obtain ⟨h4, h5⟩ := h3 m' hm'
          rw [h4, h5, hkeep]
          exact ⟨updateMap_other _ _ _ _ hm', rfl⟩

end MeetingNotes

namespace MeetingNotes

lemma update_transcriber_active (st : ConnectionManager) (m : MeetingId) (t : RealtimeTranscriber) :
    (st.update_transcriber m t).active_connections = st.active_connections := by
  cases h : st.transcribers m <;> simp [ConnectionManager.update_transcriber, h]

lemma update_transcriber_get (st : ConnectionManager) (m : MeetingId)
    (t t0 : RealtimeTranscriber) (h : st.transcribers m = some t0) :
    (st.update_transcriber m t).transcribers m = some t := by
  simp [ConnectionManager.update_transcriber, h, updateMap_same]

lemma update_transcriber_other (st : ConnectionManager) (m m' : MeetingId)
    (t : RealtimeTranscriber) (h : m' ≠ m) :
    (st.update_transcriber m t).transcribers m' = st.transcribers m' := by
  cases h0 : st.transcribers m <;> simp [ConnectionManager.update_transcriber, h0, updateMap, h]

lemma broadcast_all_ok (st : ConnectionManager) (m : MeetingId) (s : Finset Client)
    (sendFails : Client → Bool) (h : st.active_connections m = some s)
    (hok : ∀ c, sendFails c = false) :
    st.broadcast m sendFails = (s, st) := by
  have h1 : s.filter (fun c => sendFails c = false) = s :=
    Finset.filter_true_of_mem (fun c _ => hok c)
  have h2 : s.filter (fun c => sendFails c) = ∅ :=
    Finset.filter_false_of_mem (fun c _ => by simp [hok])
  simp [ConnectionManager.broadcast, h, h1, h2]

lemma handle_audio_ok
    (decode : String → AudioBytes) (transcribe : AudioBytes → Except TranscriptionFailure String)
    (analyze : String → Except AnalysisFailure AnalysisResult) (sendFails : Client → Bool)
    (st : ConnectionManager) (ws : Client) (m : MeetingId)
    (t : RealtimeTranscriber) (s : Finset Client) (a : String) (txt : String) (ts? : Option ℕ)
    (htr : st.transcribers m = some t)
    (hconn : st.active_connections m = some s)
    (htx : transcribe (decode a) = .ok txt)
    (hok : ∀ c, sendFails c = false) :
    websocket_handle_message decode transcribe analyze sendFails st ws m
        ⟨some "audio_chunk", some a, ts?⟩ =
      .ok ⟨st.update_transcriber m ⟨t.buffer ++ [txt]⟩, [(s, .transcriptChunk txt ts?)], []⟩ := by
  have h1 : (st.update_transcriber m ⟨t.buffer ++ [txt]⟩).active_connections m = some s := by
    rw [update_transcriber_active]; exact hconn
  simp [websocket_handle_message, ConnectionManager.get_transcriber, htr,
        RealtimeTranscriber.process_audio_chunk, htx,
        broadcast_all_ok _ _ _ _ h1 hok]

lemma handle_audio_err
    (decode : String → AudioBytes) (transcribe : AudioBytes → Except TranscriptionFailure String)
    (analyze : String → Except AnalysisFailure AnalysisResult) (sendFails : Client → Bool)
    (st : ConnectionManager) (ws : Client) (m : MeetingId)
    (t : RealtimeTranscriber) (a : String) (ts? : Option ℕ) (e : TranscriptionFailure)
    (htr : st.transcribers m = some t)
    (htx : transcribe (decode a) = .error e) :
    websocket_handle_message decode transcribe analyze sendFails st ws m
        ⟨some "audio_chunk", some a, ts?⟩ = .error (.transcriptionFailed e) := by
  simp [websocket_handle_message, ConnectionManager.get_transcriber, htr,
        RealtimeTranscriber.process_audio_chunk, htx]

lemma handle_finalize_ok
    (decode : String → AudioBytes) (transcribe : AudioBytes → Except TranscriptionFailure String)
    (analyze : String → Except AnalysisFailure AnalysisResult) (sendFails : Client → Bool)
    (st : ConnectionManager) (ws : Client) (m : MeetingId)
    (t : RealtimeTranscriber) (s : Finset Client) (A : AnalysisResult)
    (htr : st.transcribers m = some t)
    (hconn : st.active_connections m = some s)
    (ha : analyze t.get_full_transcript = .ok A)
    (hok : ∀ c, sendFails c = false) :
    websocket_handle_message decode transcribe analyze sendFails st ws m
        ⟨some "finalize", none, none⟩ =
      .ok ⟨st.update_transcriber m t.clear_buffer,
           [(s, .analysisComplete t.get_full_transcript A)], []⟩ := by
  simp [websocket_handle_message, ConnectionManager.get_transcriber, htr, ha,
        broadcast_all_ok _ _ _ _ hconn hok]

lemma handle_finalize_err
    (decode : String → AudioBytes) (transcribe : AudioBytes → Except TranscriptionFailure String)
    (analyze : String → Except AnalysisFailure AnalysisResult) (sendFails : Client → Bool)
    (st : ConnectionManager) (ws : Client) (m : MeetingId)
    (t : RealtimeTranscriber) (e : AnalysisFailure)
    (htr : st.transcribers m = some t)
    (ha : analyze t.get_full_transcript = .error e) :
    websocket_handle_message decode transcribe analyze sendFails st ws m
        ⟨some "finalize", none, none⟩ = .error (.analysisFailed e) := by
  simp [websocket_handle_message, ConnectionManager.get_transcriber, htr, ha]

lemma loop_uncaught
    (decode : String → AudioBytes) (transcribe : AudioBytes → Except TranscriptionFailure String)
    (analyze : String → Except AnalysisFailure AnalysisResult) (sendFails : Client → Bool)
    (st : ConnectionManager) (ws : Client) (m : MeetingId)
    (data : InboundMessage) (rest : List ClientEvent) (e : PyError)
    (h : websocket_handle_message decode transcribe analyze sendFails st ws m data = .error e) :
    websocket_loop decode transcribe analyze sendFails st ws m (.msg data :: rest) =
      ⟨st, [], [], .uncaught e⟩ := by
  simp [websocket_loop, h]

end MeetingNotes

namespace MeetingNotes

lemma loop_audio_run
    (decode : String → AudioBytes) (transcribe : AudioBytes → Except TranscriptionFailure String)
    (analyze : String → Except AnalysisFailure AnalysisResult) (sendFails : Client → Bool)
    (ws : Client) (m : MeetingId) :
    ∀ (as ts : List String),
    List.Forall₂ (fun a txt => transcribe (decode a) = Except.ok txt) as ts →
    ∀ (st : ConnectionManager) (s : Finset Client) (t : RealtimeTranscriber),
    st.active_connections m = some s → st.transcribers m = some t →
    (∀ c, sendFails c = false) →
    ((websocket_loop decode transcribe analyze sendFails st ws m
        (as.map (fun a => .msg ⟨some "audio_chunk", some a, none⟩))).manager.active_connections m
        = some s) ∧
    ((websocket_loop decode transcribe analyze sendFails st ws m
        (as.map (fun a => .msg ⟨some "audio_chunk", some a, none⟩))).manager.transcribers m
        = some ⟨t.buffer ++ ts⟩) ∧
    ((websocket_loop decode transcribe analyze sendFails st ws m
        (as.map (fun a => .msg ⟨some "audio_chunk", some a, none⟩))).broadcasts
        = ts.map (fun txt => (s, OutboundMessage.transcriptChunk txt none))) ∧
    ((websocket_loop decode transcribe analyze sendFails st ws m
        (as.map (fun a => .msg ⟨some "audio_chunk", some a, none⟩))).directSends = []) ∧
    ((websocket_loop decode transcribe analyze sendFails st ws m
        (as.map (fun a => .msg ⟨some "audio_chunk", some a, none⟩))).exit = .pending) := by
  intro as ts h
  induction h with
  | nil =>
      intro st s t hconn htr _
      simp [websocket_loop, hconn, htr]
  | @cons a txt as' ts' ha htail ih =>
      intro st s t hconn htr hsend
      have hstep := handle_audio_ok decode transcribe analyze sendFails st ws m t s a txt none
        htr hconn ha hsend
      have hconn1 : (st.update_transcriber m ⟨t.buffer ++ [txt]⟩).active_connections m = some s := by
        rw [update_transcriber_active]; exact hconn
      have htr1 : (st.update_transcriber m ⟨t.buffer ++ [txt]⟩).transcribers m
          = some ⟨t.buffer ++ [txt]⟩ :=
        update_transcriber_get st m _ t htr
      obtain ⟨i1, i2, i3, i4, i5⟩ := ih (st.update_transcriber m ⟨t.buffer ++ [txt]⟩) s
        ⟨t.buffer ++ [txt]⟩ hconn1 htr1 hsend
      simp only [List.map_cons, websocket_loop, hstep]
      refine ⟨i1, ?_, ?_, ?_, i5⟩
      · rw [i2]; simp
      · rw [i3]; simp
      · rw [i4]; simp

end MeetingNotes

namespace MeetingNotes

/-- Test fixture: base64 decode stand-in mapping a string to its char codes. -/
def cDecode : String → AudioBytes := fun a => a.data.map Char.toNat

/-- Test fixture: a transcriber backend that echoes the decoded bytes back as text. -/
def cTranscribeEcho : AudioBytes → Except TranscriptionFailure String :=
  fun b => .ok (String.mk (b.map Char.ofNat))

/-- Test fixture: transcriber backend that always fails. -/
def cTranscribeFail : AudioBytes → Except TranscriptionFailure String :=
  fun _ => .error "Could not understand audio"

/-- Test fixture: transcription succeeding with the empty string. -/
def cTranscribeEmpty : AudioBytes → Except TranscriptionFailure String :=
  fun _ => .ok ""

/-- Test fixture: a fixed analysis payload. -/
def cAnalysis : AnalysisResult := ⟨[], [], [], [], "Brief standup."⟩

/-- Test fixture: analyzer that always succeeds with `cAnalysis`. -/
def cAnalyzeOk : String → Except AnalysisFailure AnalysisResult := fun _ => .ok cAnalysis

/-- Test fixture: analyzer that always fails. -/
def cAnalyzeFail : String → Except AnalysisFailure AnalysisResult :=
  fun _ => .error "Failed to parse AI response"

/-- Test fixture: registry with client 0 connected to meeting "mtg". -/
def cState : ConnectionManager := ConnectionManager.init.connect 0 "mtg"

def cState2 : ConnectionManager := cState.connect 1 "mtg"

lemma sdiff_filter_eq (s : Finset Client) (p : Client → Bool) :
    s \ s.filter (fun c => p c) = s.filter (fun c => !(p c)) := by
  ext a
  simp [Finset.mem_sdiff, Finset.mem_filter]
  tauto

lemma broadcast_spec (st : ConnectionManager) (m : MeetingId) (s : Finset Client)
    (sendFails : Client → Bool)
    (h : st.active_connections m = some s) (hne : s ≠ ∅) :
    ((st.broadcast m sendFails).1 = s.filter (fun c => !(sendFails c))) ∧
    ((st.broadcast m sendFails).2.active_connections m =
      if s.filter (fun c => !(sendFails c)) = ∅ then none
      else some (s.filter (fun c => !(sendFails c)))) ∧
    ((st.broadcast m sendFails).2.transcribers m =
      if s.filter (fun c => !(sendFails c)) = ∅ then none else st.transcribers m) ∧
    (∀ m', m' ≠ m →
      (st.broadcast m sendFails).2.active_connections m' = st.active_connections m' ∧
      (st.broadcast m sendFails).2.transcribers m' = st.transcribers m') := by
  have hb : st.broadcast m sendFails =
      (s.filter (fun c => !(sendFails c)),
       ((s.filter (fun c => sendFails c)).sort (· ≤ ·)).foldl
         (fun acc c => acc.disconnect c m) st) := by
    simp [ConnectionManager.broadcast, h]
  have hts : ((s.filter (fun c => sendFails c)).sort (· ≤ ·)).toFinset
      = s.filter (fun c => sendFails c) := Finset.sort_toFinset _ _
  obtain ⟨h1, h2, h3⟩ := foldl_disconnect_spec
    ((s.filter (fun c => sendFails c)).sort (· ≤ ·)) st m s h hne
  rw [hts, sdiff_filter_eq] at h1 h2
  rw [hb]
  exact ⟨rfl, h1, h2, h3⟩

/-- The registry invariant of the spec: a transcriber entry exists
exactly when a connection-set entry does, and every registered
connection set is nonempty. -/
def RegistryInv (st : ConnectionManager) : Prop :=
  ∀ m, ((st.transcribers m).isSome = (st.active_connections m).isSome) ∧
       (∀ s, st.active_connections m = some s → s.Nonempty)

lemma registryInv_init : RegistryInv ConnectionManager.init := by
  intro m
  simp [ConnectionManager.init]

lemma registryInv_connect (st : ConnectionManager) (ws : Client) (m : MeetingId)
    (h : RegistryInv st) : RegistryInv (st.connect ws m) := by
  intro m'
  by_cases hm : m' = m
  · subst hm
    cases hs : st.active_connections m' with
    | some s =>
        have := (h m').1
        constructor
        · simp [ConnectionManager.connect, hs, updateMap_same, this]
        · intro s' hs'
          simp [ConnectionManager.connect, hs, updateMap_same] at hs'
          subst hs'
          exact Finset.insert_nonempty _ _
    | none =>
        constructor
        · simp [ConnectionManager.connect, hs, updateMap_same]
        · intro s' hs'
          simp [ConnectionManager.connect, hs, updateMap_same] at hs'
          subst hs'
          exact Finset.singleton_nonempty _
  · cases hs : st.active_connections m with
    | some s =>
        have h1 : (st.connect ws m).active_connections m' = st.active_connections m' := by
          simp [ConnectionManager.connect, hs, updateMap_other _ _ _ _ hm]
        have h2 : (st.connect ws m).transcribers m' = st.transcribers m' := by
          simp [ConnectionManager.connect, hs]
        rw [h1, h2]
        exact h m'
    | none =>
        have h1 : (st.connect ws m).active_connections m' = st.active_connections m' := by
          simp [ConnectionManager.connect, hs, updateMap_other _ _ _ _ hm]
        have h2 : (st.connect ws m).transcribers m' = st.transcribers m' := by
          simp [ConnectionManager.connect, hs, updateMap_other _ _ _ _ hm]
        rw [h1, h2]
        exact h m'

lemma registryInv_disconnect (st : ConnectionManager) (ws : Client) (m : MeetingId)
    (h : RegistryInv st) : RegistryInv (st.disconnect ws m) := by
  intro m'
  cases hs : st.active_connections m with
  | none =>
      rw [disconnect_absent st ws m hs]
      exact h m'
  | some s =>
      by_cases hc : s.erase ws = ∅
      · have hd : st.disconnect ws m =
            { active_connections := updateMap st.active_connections m none,
              transcribers := updateMap st.transcribers m none } := by
          simp [ConnectionManager.disconnect, hs, hc]
        rw [hd]
        by_cases hm : m' = m
        · subst hm
          simp [updateMap_same]
        · simp only [updateMap_other _ _ _ _ hm]
          exact h m'
      · have hd : st.disconnect ws m =
            { st with active_connections := updateMap st.active_connections m (some (s.erase ws)) } := by
          simp [ConnectionManager.disconnect, hs, hc]
        rw [hd]
        by_cases hm : m' = m
        · subst hm
          constructor
          · have := (h m').1
            simp [updateMap_same, hs] at this ⊢
            exact this
          · intro s' hs'
            simp [updateMap_same] at hs'
            subst hs'
            exact Finset.nonempty_iff_ne_empty.mpr hc
        · simp only [updateMap_other _ _ _ _ hm]
          exact h m'

lemma registryInv_applyOps (ops : List RegistryOp) :
    ∀ st, RegistryInv st → RegistryInv (applyOps st ops) := by
  induction ops with
  | nil => intro st h; exact h
  | cons op rest ih =>
      intro st h
      cases op with
      | connect ws m => exact ih _ (registryInv_connect st ws m h)
      | disconnect ws m => exact ih _ (registryInv_disconnect st ws m h)

/-- C1: the claim's final clause fails on the code. At a concrete input
where the transcriber fails on an audio chunk and a ping follows, the
loop terminates with the uncaught exception: the ping is never answered
(no pong is sent), nothing is broadcast, while a lone ping would have
been answered with a pong. -/
theorem C1_counterexample :
    ((websocket_loop cDecode cTranscribeFail cAnalyzeOk (fun _ => false) cState 0 "mtg"
        [.msg ⟨some "audio_chunk", some "zzz", some 5⟩, .msg ⟨some "ping", none, none⟩]).directSends
      = []) ∧
    ((websocket_loop cDecode cTranscribeFail cAnalyzeOk (fun _ => false) cState 0 "mtg"
        [.msg ⟨some "audio_chunk", some "zzz", some 5⟩, .msg ⟨some "ping", none, none⟩]).exit
      = .uncaught (.transcriptionFailed "Could not understand audio")) ∧
    ((websocket_loop cDecode cTranscribeFail cAnalyzeOk (fun _ => false) cState 0 "mtg"
        [.msg ⟨some "ping", none, none⟩]).directSends = [.pong]) :=
  ⟨rfl, rfl, rfl⟩

/-- C1 (amended): when transcription of an audio chunk fails, no
fragment is appended and nothing is broadcast or sent, but the
exception escapes the message loop uncaught: the registry is untouched
and no subsequent message of the connection is processed. -/
theorem C1_transcription_failure_uncaught
    (decode : String → AudioBytes) (transcribe : AudioBytes → Except TranscriptionFailure String)
    (analyze : String → Except AnalysisFailure AnalysisResult) (sendFails : Client → Bool)
    (st : ConnectionManager) (ws : Client) (m : MeetingId)
    (t : RealtimeTranscriber) (a : String) (ts? : Option ℕ) (e : TranscriptionFailure)
    (rest : List ClientEvent)
    (htr : st.transcribers m = some t)
    (htx : transcribe (decode a) = .error e) :
    websocket_loop decode transcribe analyze sendFails st ws m
        (.msg ⟨some "audio_chunk", some a, ts?⟩ :: rest) =
      ⟨st, [], [], .uncaught (.transcriptionFailed e)⟩ :=
  loop_uncaught decode transcribe analyze sendFails st ws m _ rest _
    (handle_audio_err decode transcribe analyze sendFails st ws m t a ts? e htr htx)

theorem C1_transcription_failure_uncaught_witness :
    websocket_loop cDecode cTranscribeFail cAnalyzeOk (fun _ => false) cState 0 "mtg"
        (.msg ⟨some "audio_chunk", some "zzz", some 5⟩ :: [.msg ⟨some "ping", none, none⟩]) =
      ⟨cState, [], [], .uncaught (.transcriptionFailed "Could not understand audio")⟩ :=
  C1_transcription_failure_uncaught cDecode cTranscribeFail cAnalyzeOk (fun _ => false) cState 0 "mtg"
    RealtimeTranscriber.init "zzz" (some 5) "Could not understand audio"
    [.msg ⟨some "ping", none, none⟩] rfl rfl

/-- C2: if the Analyzer fails on finalize, nothing is broadcast and the
registry (in particular the session's transcript buffer) is exactly as
before; a finalize retried from that state with a succeeding Analyzer
broadcasts `analysis_complete` carrying the very same transcript. -/
theorem C2_analyzer_failure_preserves_buffer
    (decode : String → AudioBytes) (transcribe : AudioBytes → Except TranscriptionFailure String)
    (analyzeF analyzeR : String → Except AnalysisFailure AnalysisResult)
    (sendFails : Client → Bool)
    (st : ConnectionManager) (ws : Client) (m : MeetingId)
    (t : RealtimeTranscriber) (s : Finset Client) (e : AnalysisFailure) (A : AnalysisResult)
    (rest : List ClientEvent)
    (htr : st.transcribers m = some t)
    (hconn : st.active_connections m = some s)
    (hfail : analyzeF t.get_full_transcript = .error e)
    (hretry : analyzeR t.get_full_transcript = .ok A)
    (hsend : ∀ c, sendFails c = false) :
    (websocket_loop decode transcribe analyzeF sendFails st ws m
        (.msg ⟨some "finalize", none, none⟩ :: rest) =
      ⟨st, [], [], .uncaught (.analysisFailed e)⟩) ∧
    (websocket_handle_message decode transcribe analyzeR sendFails st ws m
        ⟨some "finalize", none, none⟩ =
      .ok ⟨st.update_transcriber m t.clear_buffer,
           [(s, .analysisComplete t.get_full_transcript A)], []⟩) :=
  ⟨loop_uncaught decode transcribe analyzeF sendFails st ws m _ rest _
      (handle_finalize_err decode transcribe analyzeF sendFails st ws m t e htr hfail),
   handle_finalize_ok decode transcribe analyzeR sendFails st ws m t s A htr hconn hretry hsend⟩

theorem C2_analyzer_failure_preserves_buffer_witness :
    (websocket_loop cDecode cTranscribeEcho cAnalyzeFail (fun _ => false) cState 0 "mtg"
        (.msg ⟨some "finalize", none, none⟩ :: []) =
      ⟨cState, [], [], .uncaught (.analysisFailed "Failed to parse AI response")⟩) ∧
    (websocket_handle_message cDecode cTranscribeEcho cAnalyzeOk (fun _ => false) cState 0 "mtg"
        ⟨some "finalize", none, none⟩ =
      .ok ⟨cState.update_transcriber "mtg" RealtimeTranscriber.init.clear_buffer,
           [({0}, .analysisComplete RealtimeTranscriber.init.get_full_transcript cAnalysis)], []⟩) :=
  C2_analyzer_failure_preserves_buffer cDecode cTranscribeEcho cAnalyzeFail cAnalyzeOk (fun _ => false)
    cState 0 "mtg" RealtimeTranscriber.init {0} "Failed to parse AI response" cAnalysis []
    rfl rfl rfl rfl (fun _ => rfl)

/-- C3: the claim fails on the code. At a concrete input where the
transcription succeeds with the empty string, a fragment is still
appended to the buffer and a `partial_transcript` broadcast with empty
text is still emitted. -/
theorem C3_counterexample :
    (websocket_handle_message cDecode cTranscribeEmpty cAnalyzeOk (fun _ => false) cState 0 "mtg"
        ⟨some "audio_chunk", some "zzz", none⟩ =
      .ok ⟨cState.update_transcriber "mtg" ⟨[""]⟩, [({0}, .transcriptChunk "" none)], []⟩) ∧
    ((cState.update_transcriber "mtg" ⟨[""]⟩).transcribers "mtg" = some ⟨[""]⟩) :=
  ⟨handle_audio_ok cDecode cTranscribeEmpty cAnalyzeOk (fun _ => false) cState 0 "mtg"
      RealtimeTranscriber.init {0} "zzz" "" none rfl rfl rfl (fun _ => rfl),
   rfl⟩

/-- C3 (amended): on every successful transcription the resulting text
is appended to the session buffer and broadcast as a
`partial_transcript`, whether or not it is empty: the code has no
non-emptiness filter. -/
theorem C3_empty_text_still_appended
    (decode : String → AudioBytes) (transcribe : AudioBytes → Except TranscriptionFailure String)
    (analyze : String → Except AnalysisFailure AnalysisResult) (sendFails : Client → Bool)
    (st : ConnectionManager) (ws : Client) (m : MeetingId)
    (t : RealtimeTranscriber) (s : Finset Client) (a : String) (txt : String) (ts? : Option ℕ)
    (htr : st.transcribers m = some t)
    (hconn : st.active_connections m = some s)
    (htx : transcribe (decode a) = .ok txt)
    (hok : ∀ c, sendFails c = false) :
    websocket_handle_message decode transcribe analyze sendFails st ws m
        ⟨some "audio_chunk", some a, ts?⟩ =
      .ok ⟨st.update_transcriber m ⟨t.buffer ++ [txt]⟩, [(s, .transcriptChunk txt ts?)], []⟩ :=
  handle_audio_ok decode transcribe analyze sendFails st ws m t s a txt ts? htr hconn htx hok

theorem C3_empty_text_still_appended_witness :
    websocket_handle_message cDecode cTranscribeEmpty cAnalyzeOk (fun _ => false) cState 0 "mtg"
        ⟨some "audio_chunk", some "zzz", none⟩ =
      .ok ⟨cState.update_transcriber "mtg" ⟨RealtimeTranscriber.init.buffer ++ [""]⟩,
           [({0}, .transcriptChunk "" none)], []⟩ :=
  C3_empty_text_still_appended cDecode cTranscribeEmpty cAnalyzeOk (fun _ => false) cState 0 "mtg"
    RealtimeTranscriber.init {0} "zzz" "" none rfl rfl rfl (fun _ => rfl)

/-- C9: a finalize received with an empty transcript buffer still
invokes the Analyzer, on the empty string, and on success broadcasts
`analysis_complete` whose transcript field is the empty string. -/
theorem C9_finalize_empty_buffer
    (decode : String → AudioBytes) (transcribe : AudioBytes → Except TranscriptionFailure String)
    (analyze : String → Except AnalysisFailure AnalysisResult) (sendFails : Client → Bool)
    (st : ConnectionManager) (ws : Client) (m : MeetingId)
    (s : Finset Client) (A : AnalysisResult)
    (htr : st.transcribers m = some RealtimeTranscriber.init)
    (hconn : st.active_connections m = some s)
    (ha : analyze "" = .ok A)
    (hsend : ∀ c, sendFails c = false) :
    websocket_handle_message decode transcribe analyze sendFails st ws m
        ⟨some "finalize", none, none⟩ =
      .ok ⟨st.update_transcriber m ⟨[]⟩, [(s, .analysisComplete "" A)], []⟩ :=
  handle_finalize_ok decode transcribe analyze sendFails st ws m
    RealtimeTranscriber.init s A htr hconn ha hsend

theorem C9_finalize_empty_buffer_witness :
    websocket_handle_message cDecode cTranscribeEcho cAnalyzeOk (fun _ => false) cState 0 "mtg"
        ⟨some "finalize", none, none⟩ =
      .ok ⟨cState.update_transcriber "mtg" ⟨[]⟩, [({0}, .analysisComplete "" cAnalysis)], []⟩ :=
  C9_finalize_empty_buffer cDecode cTranscribeEcho cAnalyzeOk (fun _ => false) cState 0 "mtg"
    {0} cAnalysis rfl rfl rfl (fun _ => rfl)

/-- C10: a message without a "type" key, and an audio_chunk without an
"audio" key (when the session's transcriber is present, as it is for a
live session), raise a KeyError that the WebSocketDisconnect handler
does not catch: the loop ends uncaught, with the registry untouched (no
disconnect cleanup) and no participant_left (or any other) broadcast. -/
theorem C10_missing_keys_kill_connection
    (decode : String → AudioBytes) (transcribe : AudioBytes → Except TranscriptionFailure String)
    (analyze : String → Except AnalysisFailure AnalysisResult) (sendFails : Client → Bool)
    (st : ConnectionManager) (ws : Client) (m : MeetingId) :
    (∀ (a? : Option String) (ts? : Option ℕ) (rest : List ClientEvent),
      websocket_loop decode transcribe analyze sendFails st ws m
          (.msg ⟨none, a?, ts?⟩ :: rest) = ⟨st, [], [], .uncaught (.keyError "type")⟩) ∧
    (∀ (t : RealtimeTranscriber) (ts? : Option ℕ) (rest : List ClientEvent),
      st.transcribers m = some t →
      websocket_loop decode transcribe analyze sendFails st ws m
          (.msg ⟨some "audio_chunk", none, ts?⟩ :: rest) =
        ⟨st, [], [], .uncaught (.keyError "audio")⟩) := by
  constructor
  · intro a? ts? rest
    exact loop_uncaught decode transcribe analyze sendFails st ws m _ rest _ rfl
  · intro t ts? rest htr
    refine loop_uncaught decode transcribe analyze sendFails st ws m _ rest _ ?_
    simp [websocket_handle_message, ConnectionManager.get_transcriber, htr]

theorem C10_missing_keys_kill_connection_witness :
    websocket_loop cDecode cTranscribeEcho cAnalyzeOk (fun _ => false) cState 0 "mtg"
        (.msg ⟨some "audio_chunk", none, none⟩ :: []) =
      ⟨cState, [], [], .uncaught (.keyError "audio")⟩ :=
  (C10_missing_keys_kill_connection cDecode cTranscribeEcho cAnalyzeOk (fun _ => false)
    cState 0 "mtg").2 RealtimeTranscriber.init none [] rfl

lemma applyOps_append : ∀ (l1 l2 : List RegistryOp) (st : ConnectionManager),
    applyOps st (l1 ++ l2) = applyOps (applyOps st l1) l2 := by
  intro l1
  induction l1 with
  | nil => intro l2 st; rfl
  | cons op rest ih =>
      intro l2 st
      cases op with
      | connect ws m => simpa [applyOps] using ih l2 (st.connect ws m)
      | disconnect ws m => simpa [applyOps] using ih l2 (st.disconnect ws m)

/-- C4: after a run of audio chunks whose transcriptions return the
texts `ts` in order, the session buffer holds exactly `ts` in order and
the full transcript is the chunks joined by single spaces; reading the
transcript is a pure function of the buffer, so it cannot mutate it. -/
theorem C4_full_transcript_is_space_join
    (decode : String → AudioBytes) (transcribe : AudioBytes → Except TranscriptionFailure String)
    (analyze : String → Except AnalysisFailure AnalysisResult) (sendFails : Client → Bool)
    (st : ConnectionManager) (ws : Client) (m : MeetingId)
    (s : Finset Client) (as ts : List String)
    (hconn : st.active_connections m = some s)
    (htr : st.transcribers m = some RealtimeTranscriber.init)
    (hts : List.Forall₂ (fun a txt => transcribe (decode a) = Except.ok txt) as ts)
    (hne : ∀ txt ∈ ts, txt ≠ "")
    (hsend : ∀ c, sendFails c = false) :
    ((websocket_loop decode transcribe analyze sendFails st ws m
        (as.map (fun a => .msg ⟨some "audio_chunk", some a, none⟩))).manager.transcribers m
      = some ⟨ts⟩) ∧
    (RealtimeTranscriber.get_full_transcript ⟨ts⟩ = spaceJoined ts) ∧
    ((websocket_loop decode transcribe analyze sendFails st ws m
        (as.map (fun a => .msg ⟨some "audio_chunk", some a, none⟩))).broadcasts
      = ts.map (fun txt => (s, OutboundMessage.transcriptChunk txt none))) ∧
    ((websocket_loop decode transcribe analyze sendFails st ws m
        (as.map (fun a => .msg ⟨some "audio_chunk", some a, none⟩))).exit = .pending) := by
  obtain ⟨i1, i2, i3, i4, i5⟩ := loop_audio_run decode transcribe analyze sendFails ws m
    as ts hts st s RealtimeTranscriber.init hconn htr hsend
  exact ⟨i2, intercalate_space_eq ts, i3, i5⟩

theorem C4_full_transcript_is_space_join_witness :
    (∀ txt ∈ (["hi", "yo"] : List String), txt ≠ "") ∧
    (((websocket_loop cDecode cTranscribeEcho cAnalyzeOk (fun _ => false) cState 0 "mtg"
        ((["hi", "yo"] : List String).map (fun a => .msg ⟨some "audio_chunk", some a, none⟩))).manager.transcribers "mtg"
      = some ⟨["hi", "yo"]⟩) ∧
    (RealtimeTranscriber.get_full_transcript ⟨["hi", "yo"]⟩ = spaceJoined ["hi", "yo"]) ∧
    (((websocket_loop cDecode cTranscribeEcho cAnalyzeOk (fun _ => false) cState 0 "mtg"
        ((["hi", "yo"] : List String).map (fun a => .msg ⟨some "audio_chunk", some a, none⟩))).broadcasts
      = (["hi", "yo"] : List String).map (fun txt => ({0}, OutboundMessage.transcriptChunk txt none)))) ∧
    ((websocket_loop cDecode cTranscribeEcho cAnalyzeOk (fun _ => false) cState 0 "mtg"
        ((["hi", "yo"] : List String).map (fun a => .msg ⟨some "audio_chunk", some a, none⟩))).exit = .pending)) :=
  ⟨by decide,
   C4_full_transcript_is_space_join cDecode cTranscribeEcho cAnalyzeOk (fun _ => false)
     cState 0 "mtg" {0} ["hi", "yo"] ["hi", "yo"] rfl rfl
     (List.Forall₂.cons rfl (List.Forall₂.cons rfl List.Forall₂.nil))
     (by decide) (fun _ => rfl)⟩

/-- C5: broadcast delivers to every client whose send does not fail
(one failure never blocks the others), and each failing client is
pruned exactly as a disconnect would prune it: the session survives
with the surviving clients, or is deleted (set and transcriber) when
no client remains. Other meetings are untouched. -/
theorem C5_broadcast_prunes_failed_sends
    (st : ConnectionManager) (m : MeetingId) (s : Finset Client)
    (sendFails : Client → Bool)
    (h : st.active_connections m = some s) (hne : s ≠ ∅) :
    ((st.broadcast m sendFails).1 = s.filter (fun c => !(sendFails c))) ∧
    ((st.broadcast m sendFails).2.active_connections m =
      if s.filter (fun c => !(sendFails c)) = ∅ then none
      else some (s.filter (fun c => !(sendFails c)))) ∧
    ((st.broadcast m sendFails).2.transcribers m =
      if s.filter (fun c => !(sendFails c)) = ∅ then none else st.transcribers m) ∧
    (∀ m', m' ≠ m →
      (st.broadcast m sendFails).2.active_connections m' = st.active_connections m' ∧
      (st.broadcast m sendFails).2.transcribers m' = st.transcribers m') :=
  broadcast_spec st m s sendFails h hne

theorem C5_broadcast_prunes_failed_sends_witness :
    ((cState2.broadcast "mtg" (fun c => decide (c = 0))).1
      = (insert 1 ({0} : Finset Client)).filter (fun c => !(decide (c = 0)))) ∧
    ((cState2.broadcast "mtg" (fun c => decide (c = 0))).2.active_connections "mtg" =
      if (insert 1 ({0} : Finset Client)).filter (fun c => !(decide (c = 0))) = ∅ then none
      else some ((insert 1 ({0} : Finset Client)).filter (fun c => !(decide (c = 0))))) ∧
    ((cState2.broadcast "mtg" (fun c => decide (c = 0))).2.transcribers "mtg" =
      if (insert 1 ({0} : Finset Client)).filter (fun c => !(decide (c = 0))) = ∅ then none
      else cState2.transcribers "mtg") ∧
    (∀ m', m' ≠ "mtg" →
      (cState2.broadcast "mtg" (fun c => decide (c = 0))).2.active_connections m'
        = cState2.active_connections m' ∧
      (cState2.broadcast "mtg" (fun c => decide (c = 0))).2.transcribers m'
        = cState2.transcribers m') :=
  C5_broadcast_prunes_failed_sends cState2 "mtg" (insert 1 ({0} : Finset Client)) (fun c => decide (c = 0))
    rfl (by simp)

/-- C6: over any connect/disconnect history from the empty registry, a
session entry (connection set and transcriber, in lockstep) exists for
a meeting iff it has at least one connected client; disconnecting the
last client removes both entries, and a subsequent connect for the same
meeting recreates a session whose transcriber has an empty buffer. -/
theorem C6_registry_lifecycle (ops : List RegistryOp) (m : MeetingId) :
    (((applyOps ConnectionManager.init ops).transcribers m).isSome
        = ((applyOps ConnectionManager.init ops).active_connections m).isSome) ∧
    (∀ s, (applyOps ConnectionManager.init ops).active_connections m = some s → s.Nonempty) ∧
    (∀ ws, (applyOps ConnectionManager.init ops).active_connections m = some {ws} →
        (applyOps ConnectionManager.init (ops ++ [.disconnect ws m])).active_connections m = none ∧
        (applyOps ConnectionManager.init (ops ++ [.disconnect ws m])).transcribers m = none) ∧
    ((applyOps ConnectionManager.init ops).active_connections m = none → ∀ ws,
        (applyOps ConnectionManager.init (ops ++ [.connect ws m])).active_connections m = some {ws} ∧
        (applyOps ConnectionManager.init (ops ++ [.connect ws m])).transcribers m
          = some RealtimeTranscriber.init) := by
  have hinv := registryInv_applyOps ops ConnectionManager.init registryInv_init m
  refine ⟨hinv.1, hinv.2, ?_, ?_⟩
  · intro ws h
    rw [applyOps_append]
    constructor <;>
      simp [applyOps, ConnectionManager.disconnect, h, Finset.erase_singleton, updateMap_same]
  · intro h ws
    rw [applyOps_append]
    constructor <;>
      simp [applyOps, ConnectionManager.connect, h, updateMap_same]

theorem C6_registry_lifecycle_witness :
    (applyOps ConnectionManager.init ([.connect 0 "mtg"] ++ [.disconnect 0 "mtg"])).active_connections "mtg" = none ∧
    (applyOps ConnectionManager.init ([.connect 0 "mtg"] ++ [.disconnect 0 "mtg"])).transcribers "mtg" = none :=
  (C6_registry_lifecycle [.connect 0 "mtg"] "mtg").2.2.1 0 rfl

/-- C7: connecting to an already-registered meeting never creates a
second session: every transcriber entry (hence its accumulated buffer)
is kept as-is, the existing client set just gains the new client, and
other meetings are untouched. -/
theorem C7_connect_is_idempotent_on_sessions
    (st : ConnectionManager) (ws : Client) (m : MeetingId) (s : Finset Client)
    (h : st.active_connections m = some s) :
    ((st.connect ws m).active_connections m = some (insert ws s)) ∧
    (∀ m'', (st.connect ws m).transcribers m'' = st.transcribers m'') ∧
    (∀ m', m' ≠ m → (st.connect ws m).active_connections m' = st.active_connections m') := by
  refine ⟨?_, ?_, ?_⟩
  · simp [ConnectionManager.connect, h, updateMap_same]
  · intro m''
    simp [ConnectionManager.connect, h]
  · intro m' hm'
    simp [ConnectionManager.connect, h, updateMap_other _ _ _ _ hm']

theorem C7_connect_is_idempotent_on_sessions_witness :
    ((cState.connect 1 "mtg").active_connections "mtg" = some (insert 1 {0})) ∧
    (∀ m'', (cState.connect 1 "mtg").transcribers m'' = cState.transcribers m'') ∧
    (∀ m', m' ≠ "mtg" → (cState.connect 1 "mtg").active_connections m' = cState.active_connections m') :=
  C7_connect_is_idempotent_on_sessions cState 1 "mtg" {0} rfl

/-- C8: disconnect is a total function over its whole state space and
its effect is exactly: no-op when the meeting is unknown (in
particular, a no-op beyond removing nothing when the client is not a
member), removal of the client otherwise, with the session (set and
transcriber) deleted exactly when the remaining set is empty; other
meetings are never touched. -/
theorem C8_disconnect_is_total
    (st : ConnectionManager) (ws : Client) (m : MeetingId) :
    (st.active_connections m = none →
      (∀ m'', (st.disconnect ws m).active_connections m'' = st.active_connections m'' ∧
              (st.disconnect ws m).transcribers m'' = st.transcribers m'')) ∧
    (∀ s, st.active_connections m = some s → s.erase ws = ∅ →
      ((st.disconnect ws m).active_connections m = none ∧
       (st.disconnect ws m).transcribers m = none)) ∧
    (∀ s, st.active_connections m = some s → s.erase ws ≠ ∅ →
      ((st.disconnect ws m).active_connections m = some (s.erase ws) ∧
       (st.disconnect ws m).transcribers m = st.transcribers m)) ∧
    (∀ m', m' ≠ m →
      (st.disconnect ws m).active_connections m' = st.active_connections m' ∧
      (st.disconnect ws m).transcribers m' = st.transcribers m') := by
  refine ⟨?_, ?_, ?_, ?_⟩
  · intro h m''
    rw [disconnect_absent st ws m h]
    exact ⟨rfl, rfl⟩
  · intro s hs hc
    constructor <;> simp [ConnectionManager.disconnect, hs, hc, updateMap_same]
  · intro s hs hc
    constructor <;> simp [ConnectionManager.disconnect, hs, hc, updateMap_same]
  · intro m' hm'
    cases hs : st.active_connections m with
    | none =>
        rw [disconnect_absent st ws m hs]
        exact ⟨rfl, rfl⟩
    | some s =>
        by_cases hc : s.erase ws = ∅ <;>
          constructor <;>
            simp [ConnectionManager.disconnect, hs, hc, updateMap_other _ _ _ _ hm']

theorem C8_disconnect_is_total_witness :
    ((cState.disconnect 5 "mtg").active_connections "mtg" = some (({0} : Finset Client).erase 5) ∧
     (cState.disconnect 5 "mtg").transcribers "mtg" = cState.transcribers "mtg") ∧
    ((cState.disconnect 0 "other").active_connections "zzz" = cState.active_connections "zzz" ∧
     (cState.disconnect 0 "other").transcribers "zzz" = cState.transcribers "zzz") :=
  ⟨(C8_disconnect_is_total cState 5 "mtg").2.2.1 {0} rfl (by decide),
   (C8_disconnect_is_total cState 0 "other").2.2.2 "zzz" (by decide)⟩

end MeetingNotes
